import Mathlib

/-!
Verification of the mp3-collection repository against its design spec.

The Python sources are shallowly embedded as Lean functions.  Python strings
are modelled as Lean String values, with the character-level operations
(split, strip, lower, startswith/endswith) implemented structurally on
List Char so that every definition evaluates inside the kernel.  The
embedding is ASCII-scoped where Python uses Unicode-aware case folding and
character classes: the repository processes iTunes export fields whose
header labels and separators are ASCII.  Numeric parsing models Python
int(float(x)) on plain decimal literals (optional sign, digits, optional
fractional digits), which is the shape of the CSV numeric fields.
-/

/-! ## Python-style character and string primitives -/

/-- Whitespace characters recognised by Python str.strip (ASCII range). -/
def isPySpace (c : Char) : Bool :=
  c = ' ' || c = '\t' || c = '\n' || c = '\x0d' || c = '\x0b' || c = '\x0c'

/-- Python str.strip on a character list: drop whitespace from both ends. -/
def pyStripL (l : List Char) : List Char :=
  ((l.dropWhile isPySpace).reverse.dropWhile isPySpace).reverse

/-- Python str.strip. -/
def pyStrip (s : String) : String := String.mk (pyStripL s.toList)

/-- Splitter for Python str.split(sep) with a one-character separator:
accumulates the current field (reversed) and emits it at each separator.
Python returns one (possibly empty) field even for the empty string. -/
def splitChGo (sep : Char) : List Char → List Char → List (List Char)
  | [], acc => [acc.reverse]
  | c :: rest, acc =>
    if c = sep then acc.reverse :: splitChGo sep rest []
    else splitChGo sep rest (c :: acc)

/-- Python str.split with a one-character separator. -/
def pySplitCh (sep : Char) (s : String) : List String :=
  (splitChGo sep s.toList []).map String.mk

/-- ASCII lower-casing of one character, as Python str.lower acts on the
ASCII range: code points 65..90 are shifted by 32, everything else is kept. -/
def pyLowerChar (c : Char) : Char :=
  if 65 ≤ c.toNat ∧ c.toNat ≤ 90 then Char.ofNat (c.toNat + 32) else c

/-- Python str.lower (ASCII-scoped). -/
def pyLower (s : String) : String := String.mk (s.toList.map pyLowerChar)

/-- Lexicographic less-or-equal on character lists by code point: exactly the
ordering Python uses to compare strings. -/
def lexLe : List Char → List Char → Bool
  | [], _ => true
  | _ :: _, [] => false
  | a :: as, b :: bs => if a < b then true else if b < a then false else lexLe as bs

/-- Python string less-or-equal (code-point lexicographic order). -/
def strLe (s t : String) : Bool := lexLe s.toList t.toList

/-- Python sorted on strings: insertion sort by code-point order. -/
def sortStr (l : List String) : List String :=
  List.insertionSort (fun a b => strLe a b = true) l

/-! ## compile_itunes_exports.py — Schema Detector (detect_header_pattern) -/

/-- The fixed header-label list the detector matches fields against
(compile_itunes_exports.py, detect_header_pattern). -/
def detectorLabels : List String :=
  ["Name", "Artist", "Composer", "Album", "Genre", "Size",
   "Time", "Track Number", "Year", "Date", "Location"]

/-- Number of fields among the first 15 that exactly match a known
header label (the counting loop of detect_header_pattern). -/
def headerMatchCount (first_line : String) : Nat :=
  ((pySplitCh '\t' first_line).take 15).countP (fun f => detectorLabels.contains f)

/-- detect_header_pattern: split the first line on tabs, count known labels
among the first 15 fields; with at least 5 matches report a header, with the
split point taken from the first occurrence of the Location field anywhere in
the line, or min 27 (fieldCount / 2) when Location is absent. -/
def detect_header_pattern (first_line : String) : Bool × Nat :=
  let fields := pySplitCh '\t' first_line
  let header_matches := (fields.take 15).countP (fun f => detectorLabels.contains f)
  if 5 ≤ header_matches then
    match fields.findIdx? (fun f => f == "Location") with
    | some location_idx => (true, location_idx + 1)
    | none => (true, min 27 (fields.length / 2))
  else (false, 0)

/-- The 26-name fixed fallback schema used when no header is detected
(parse_export_file, standard_headers). -/
def standard_headers : List String :=
  ["Name", "Artist", "Composer", "Album", "Grouping", "Genre",
   "Size", "Time", "Disc Number", "Disc Count", "Track Number", "Track Count",
   "Year", "Date Modified", "Date", "Date Added",
   "Bit Rate", "Sample Rate", "Volume Adjustment",
   "Kind", "Equalizer", "Comments",
   "Play Count", "Last Played", "My Rating",
   "Location"]

/-! ## compile_itunes_exports.py — Row Extractor (parse_export_file) -/

/-- A parsed record: the per-row field mapping plus the two provenance
attributes, which the Python code stores under the reserved dictionary keys
id est the source file name and the 1-based line number. -/
structure RawRecord where
  fields : List (String × String)
  src : String
  line : Nat
deriving DecidableEq

/-- Python dict assignment on insertion-ordered association lists: replace
the value in place when the key exists, append otherwise. -/
def rowUpd (r : List (String × String)) (k v : String) : List (String × String) :=
  if r.any (fun p => p.1 == k) then r.map (fun p => if p.1 == k then (k, v) else p)
  else r ++ [(k, v)]

/-- The row-building loop of parse_export_file: for the i-th header take the
i-th field, or the empty string when the line is short. -/
def mkRowFields (headers fields : List String) : List (String × String) :=
  headers.enum.foldl (fun r ih => rowUpd r ih.2 (fields.getD ih.1 "")) []

/-- Python dict get with empty-string default. -/
def rowGet (fields : List (String × String)) (k : String) : String :=
  (fields.lookup k).getD ""

/-- The data-row loop of parse_export_file: skip blank lines, zip every other
line positionally against the headers, stamp provenance. -/
def dataRows (fname : String) (headers : List String) : List String → Nat → List RawRecord
  | [], _ => []
  | line :: rest, n =>
    if pyStrip line = "" then dataRows fname headers rest (n + 1)
    else ⟨mkRowFields headers (pySplitCh '\t' line), fname, n⟩ :: dataRows fname headers rest (n + 1)

/-- parse_export_file on a file name and its textual content (the I/O wrapper
and its error list are outside the model: a readable file never produces an
error string).  Returns the headers used and the record list. -/
def parse_export_file (fname : String) (content : String) : List String × List RawRecord :=
  let lines := pySplitCh '\n' (pyStrip content)
  let first_line := lines.headD ""
  let v := detect_header_pattern first_line
  if v.1 then
    let first_fields := pySplitCh '\t' first_line
    if first_fields.length > v.2 + 5 then
      let headers := first_fields.take v.2
      let data_fields := first_fields.drop v.2
      (headers, ⟨mkRowFields headers data_fields, fname, 1⟩ ::
        dataRows fname headers (lines.drop 1) 2)
    else
      (first_fields.take v.2, dataRows fname (first_fields.take v.2) (lines.drop 1) 2)
  else
    (standard_headers, dataRows fname standard_headers lines 1)

/-- The per-file format tally of main: header plus data on one line,
separate header line, or no header. -/
inductive FormatVerdict where
  | noHeader
  | separateHeader
  | inlineHeaderAndData
deriving DecidableEq

/-- The format-classification of main (lines 238..249): reuses the detector
and the same field-count threshold as parse_export_file. -/
def classify_format (first_line : String) : FormatVerdict :=
  let v := detect_header_pattern first_line
  let field_count := (pySplitCh '\t' first_line).length
  if v.1 ∧ field_count > v.2 + 5 then .inlineHeaderAndData
  else if v.1 then .separateHeader
  else .noHeader

example : detect_header_pattern "Name\tArtist\tAlbum\tGenre\tSize\tTime\tLocation\tSong A\tArtist A\tAlbum A\tRock\t1000\t200\tfile:///a" = (true, 7) := by decide

example : classify_format "Name\tArtist\tAlbum\tGenre\tSize\tTime\tLocation\tSong A\tArtist A\tAlbum A\tRock\t1000\t200\tfile:///a" = .inlineHeaderAndData := by decide

/-! ## compile_itunes_exports.py — Schema Unifier (get_unified_headers) -/

/-- The fixed preferred-order list of get_unified_headers (identical names to
the fallback schema). -/
def preferred_order : List String := standard_headers

/-- The union of all observed header names: the Python code folds the header
sets into one set with set.update; the model folds into one list and takes
the distinct names.  Only membership in this collection is ever used. -/
def allFieldsOf (all_headers : List (List String)) : List String :=
  (all_headers.foldl (fun acc hs => acc ++ hs) []).dedup

/-- get_unified_headers: preferred names present in the union first, in the
fixed order; then the remaining union names minus the provenance names,
sorted; then the two provenance columns. -/
def get_unified_headers (all_headers : List (List String)) : List String :=
  let all_fields := allFieldsOf all_headers
  let unified := preferred_order.filter (fun f => all_fields.contains f)
  let remaining := sortStr (all_fields.filter
    (fun f => !(unified.contains f) && !(f == "_source_file") && !(f == "_line_number")))
  unified ++ remaining ++ ["_source_file", "_line_number"]

/-- The canonical schema as the spec sentence words it: names of the fixed
preferred-order list present in the union, in that fixed order; then all
remaining union names (excluding the provenance names) sorted
lexicographically; then the two provenance columns appended last. -/
def unifiedSpecForm (all_headers : List (List String)) : List String :=
  let all_fields := allFieldsOf all_headers
  (preferred_order.filter (fun f => all_fields.contains f)) ++
  sortStr (all_fields.filter
    (fun f => !(preferred_order.contains f) && !(f == "_source_file") && !(f == "_line_number"))) ++
  ["_source_file", "_line_number"]

/-! ## compile_itunes_exports.py — Corpus Deduplicator (main, lines 282..304) -/

/-- The content tuple of a record: its values over every canonical column
except the two provenance columns, read with the empty-string default. -/
def contentTuple (unified : List String) (r : RawRecord) : List String :=
  (unified.filter (fun f => !(f == "_source_file") && !(f == "_line_number"))).map
    (fun f => rowGet r.fields f)

/-- The deduplication loop of main: a seen-set of content tuples; a record
whose tuple was already seen is dropped, otherwise it is kept and its tuple
recorded. -/
def dedupGo (unified : List String) (seen : List (List String)) :
    List RawRecord → List RawRecord
  | [] => []
  | r :: rest =>
    let t := contentTuple unified r
    if t ∈ seen then dedupGo unified seen rest
    else r :: dedupGo unified (t :: seen) rest

/-- Deduplicated record stream plus the reported duplicates-removed count
(main computes original count minus surviving count). -/
def dedupResult (unified : List String) (rows : List RawRecord) : List RawRecord × Nat :=
  let deduped := dedupGo unified [] rows
  (deduped, rows.length - deduped.length)

/-- The subsequence described by the claim: keep a record exactly when its
content tuple did not occur earlier in traversal order; prev carries the
tuples of all earlier records, kept or dropped. -/
def claimFilter (unified : List String) (prev : List (List String)) :
    List RawRecord → List RawRecord
  | [] => []
  | r :: rest =>
    let t := contentTuple unified r
    if t ∈ prev then claimFilter unified (t :: prev) rest
    else r :: claimFilter unified (t :: prev) rest

/-! ## build_web_data.py / extract scripts — Normalization Layer -/

/-- is_valid_name: a name is invalid when empty, or when its trimmed form is
empty or consists entirely of question marks. -/
def is_valid_name (name : String) : Bool :=
  if name = "" then false
  else
    let clean := pyStrip name
    !(clean == "") && !(clean == "?") && !(clean.toList.all (fun c => c == '?'))

/-- The quote-stripping loop of sanitize_artist_name and sanitize_genre:
while the string starts with the three-quote token remove three characters,
else while it starts with one quote remove one. -/
def stripLeadQ : List Char → List Char
  | '"' :: '"' :: '"' :: rest => stripLeadQ rest
  | '"' :: rest => stripLeadQ rest
  | l => l

/-- The trailing-quote loop: it tests the same two all-quote tokens against
the end of the string and removes them there, which on the reversed
character list is literally the leading loop. -/
def stripTrailQ (l : List Char) : List Char := (stripLeadQ l.reverse).reverse

/-- strip, remove leading and trailing quote runs, strip again: the shared
prefix of sanitize_artist_name and sanitize_genre. -/
def quoteTrimmed (name : String) : String :=
  pyStrip (String.mk (stripTrailQ (stripLeadQ (pyStrip name).toList)))

/-- The fixed comma-plus-article suffix list of sanitize_artist_name. -/
def articles : List String :=
  [", The", ", A", ", An", ", Le", ", La", ", Los", ", Las", ", El"]

/-- Python a.lower().endswith(b.lower()). -/
def lowerEndsWith (s pat : String) : Bool :=
  (pyLower pat).toList.isSuffixOf (pyLower s).toList

/-- The first article of the fixed list that matches the end of the name
case-insensitively (the for-loop of sanitize_artist_name stops at it). -/
def findArticleSuffix (name : String) : Option String :=
  articles.find? (fun article => lowerEndsWith name article)

/-- sanitize_artist_name: strip quote markers, then move the first matching
trailing article to the front, dropping the comma. -/
def sanitize_artist_name (name : String) : String :=
  let n := quoteTrimmed name
  match findArticleSuffix n with
  | some article =>
    let article_text := String.mk (article.toList.drop 2)
    let name_without := String.mk (n.toList.take (n.toList.length - article.toList.length))
    pyStrip (article_text ++ " " ++ name_without)
  | none => pyStrip n

/-- ASCII letter test, the model of the re.search A-to-Z-or-a-to-z class in
sanitize_genre. -/
def isAsciiLetter (c : Char) : Bool :=
  (65 ≤ c.toNat && c.toNat ≤ 90) || (97 ≤ c.toNat && c.toNat ≤ 122)

/-- sanitize_genre: strip quote markers; keep the value only when it contains
at least one ASCII letter. -/
def sanitize_genre (genre : Option String) : Option String :=
  match genre with
  | none => none
  | some g0 =>
    if g0 = "" then none
    else
      let g := quoteTrimmed g0
      if g.toList.any isAsciiLetter then some g else none

/-- Value of a digit run, most significant first. -/
def digitsToNat (l : List Char) : Nat := l.foldl (fun n c => 10 * n + (c.toNat - 48)) 0

/-- Model of Python float(x) restricted to plain decimal literals: optional
surrounding whitespace, optional sign, digits with an optional fractional
part.  The parsed value is returned unrounded as a mantissa and the count of
fractional digits, so the value is mantissa divided by 10 to that count. -/
def parsePyFloat (s : String) : Option (Int × Nat) :=
  let l := pyStripL s.toList
  let sign : Int := if l.headD ' ' = '-' then -1 else 1
  let l1 := if l.headD ' ' = '-' ∨ l.headD ' ' = '+' then l.tail else l
  let intPart := l1.takeWhile Char.isDigit
  let rest := l1.dropWhile Char.isDigit
  match rest with
  | [] => if intPart = [] then none else some (sign * digitsToNat intPart, 0)
  | '.' :: fracRest =>
    let fracPart := fracRest.takeWhile Char.isDigit
    let rest2 := fracRest.dropWhile Char.isDigit
    if rest2 = [] ∧ ¬(intPart = [] ∧ fracPart = []) then
      some (sign * (digitsToNat intPart * 10 ^ fracPart.length + digitsToNat fracPart),
            fracPart.length)
    else none
  | _ => none

/-- Truncation toward zero of mantissa divided by 10 to the k: the effect of
Python int() on the parsed float value. -/
def truncScaled (m : Int) (k : Nat) : Int :=
  if 0 ≤ m then ((m.toNat / 10 ^ k : Nat) : Int) else -(((-m).toNat / 10 ^ k : Nat) : Int)

/-- safe_int: default on missing, blank or unparsable input, otherwise the
integer truncation of the parsed float value. -/
def safe_int (value : Option String) (dflt : Int) : Int :=
  match value with
  | none => dflt
  | some s =>
    if pyStrip s = "" then dflt
    else
      match parsePyFloat s with
      | some mk2 => truncScaled mk2.1 mk2.2
      | none => dflt

/-- safe_str: None on missing or blank input, otherwise the trimmed string. -/
def safe_str (value : Option String) : Option String :=
  match value with
  | none => none
  | some s => if pyStrip s = "" then none else some (pyStrip s)

/-- sanitize_year, with the wall-clock current year passed explicitly:
parse as integer, reject nonpositive values, accept exactly the years from
1000 through the current year. -/
def sanitize_year (current_year : Int) (value : Option String) : Option Int :=
  let y := safe_int value 0
  if y ≤ 0 then none
  else if 1000 ≤ y ∧ y ≤ current_year then some y
  else none

/-- Zero-padding to two digits, as the Python 02d format applied to the
seconds remainder (always in 0..59 here). -/
def pad2 (n : Int) : String := if n < 10 then "0" ++ toString n else toString n

/-- format_duration: floor-divide by 60 as Python does, remainder zero-padded. -/
def format_duration (seconds : Int) : String :=
  if seconds = 0 then "0:00"
  else toString (Int.fdiv seconds 60) ++ ":" ++ pad2 (Int.emod seconds 60)

/-! ## build_web_data.py — slugify -/

/-- Word characters of the regex word class, ASCII-scoped: alphanumerics and
the underscore. -/
def isWordCh (c : Char) : Bool := c.isAlphanum || c = '_'

/-- Characters surviving the first slugify substitution: word characters,
whitespace and hyphens. -/
def slugKeep (c : Char) : Bool := isWordCh c || isPySpace c || c = '-'

/-- Characters collapsed by the second slugify substitution. -/
def isSepCh (c : Char) : Bool := isPySpace c || c = '-'

/-- The second slugify substitution: every maximal run of whitespace and
hyphens becomes a single hyphen.  The flag records whether the previous
character belonged to the current run. -/
def collapseGo : Bool → List Char → List Char
  | _, [] => []
  | inSep, c :: rest =>
    if isSepCh c then
      if inSep then collapseGo true rest else '-' :: collapseGo true rest
    else c :: collapseGo false rest

/-- Python strip with the hyphen character. -/
def stripDashes (l : List Char) : List Char :=
  ((l.dropWhile (fun c => c == '-')).reverse.dropWhile (fun c => c == '-')).reverse

/-- The character-level slugify pipeline: lower-case, drop characters outside
the kept class, collapse separator runs to single hyphens, strip hyphens. -/
def slugifyL (l : List Char) : List Char :=
  stripDashes (collapseGo false ((l.map pyLowerChar).filter slugKeep))

/-- slugify: empty input and empty results map to the fixed fallback token. -/
def slugify (text : String) : String :=
  if text = "" then "unknown"
  else
    let result := String.mk (slugifyL text.toList)
    if result = "" then "unknown" else result

example : sanitize_artist_name "Beatles, The" = "The Beatles" := by decide
example : sanitize_artist_name "\"\"\"Prince\"\"\"" = "Prince" := by decide
example : slugify "Hello, World!" = "hello-world" := by decide
example : slugify "" = "unknown" := by decide
example : slugify "!!!" = "unknown" := by decide
example : safe_int (some "12.9") 0 = 12 := by decide
example : safe_int (some "-12.9") 0 = -12 := by decide
example : safe_int (some "abc") 7 = 7 := by decide
example : sanitize_year 2024 (some "1899") = some 1899 := by decide
example : sanitize_year 2024 (some "3000") = none := by decide
example : format_duration 200 = "3:20" := by decide

/-! ## build_web_data.py — the per-row fold of build_web_data -/

/-- A track object with every field the Python loop stores. -/
structure Track where
  id : String
  name : String
  artist : String
  artistSlug : String
  composer : Option String
  album : String
  albumSlug : String
  grouping : Option String
  genre : Option String
  year : Option Int
  size : Int
  duration : Int
  durationFormatted : String
  bitRate : Option Int
  sampleRate : Option Int
  trackNumber : Option Int
  trackCount : Option Int
  discNumber : Option Int
  discCount : Option Int
  playCount : Int
  lastPlayed : Option String
  rating : Int
  dateAdded : Option String
  dateModified : Option String
  location : Option String
  kind : Option String
  volumeAdjustment : Option Int
  equalizer : Option String
  comments : Option String
deriving DecidableEq

/-- Accumulator entry of the artist and album maps: display name, set of
associated names, member track identifiers. -/
structure IdxAcc where
  name : String
  assoc : List String
  trackIds : List String
deriving DecidableEq

/-- Insertion-ordered map write, as Python dict assignment. -/
def mapSet (m : List (String × IdxAcc)) (k : String) (v : IdxAcc) :
    List (String × IdxAcc) :=
  if m.any (fun p => p.1 == k) then m.map (fun p => if p.1 == k then (k, v) else p)
  else m ++ [(k, v)]

/-- defaultdict read: the stored entry, or the empty default. -/
def mapGetD (m : List (String × IdxAcc)) (k : String) : IdxAcc :=
  (m.lookup k).getD ⟨"", [], []⟩

/-- Python set.add on the list model: append when not yet present. -/
def listAddNew (l : List String) (x : String) : List String :=
  if l.contains x then l else l ++ [x]

/-- Python set.add for the year set. -/
def listAddNewInt (l : List Int) (x : Int) : List Int :=
  if l.contains x then l else l ++ [x]

/-- Zero-padding of the Python 05d format. -/
def padZeros (w : Nat) (n : Nat) : String :=
  let s := toString n
  String.mk (List.replicate (w - s.length) '0' ++ s.toList)

/-- The in-memory state of the build_web_data read loop. -/
structure BState where
  tracks : List Track
  artists_map : List (String × IdxAcc)
  albums_map : List (String × IdxAcc)
  genres : List String
  years : List Int
  total_size : Int
  total_duration : Int
  total_bitrate_sum : Int
  bitrate_count : Nat
deriving DecidableEq

/-- The empty initial state of build_web_data. -/
def initBState : BState := ⟨[], [], [], [], [], 0, 0, 0, 0⟩

/-- The artist name derived by the loop: sanitized when present, with the
fixed fallback when the sanitized value is missing or empty (Python or). -/
def buildArtistName (row : List (String × String)) : String :=
  let a0 := match safe_str (row.lookup "Artist") with
    | none => ""
    | some v => sanitize_artist_name v
  if a0 = "" then "Unknown Artist" else a0

/-- The album name derived by the loop (safe_str never yields an empty
string, so the Python or reduces to the None fallback). -/
def buildAlbumName (row : List (String × String)) : String :=
  (safe_str (row.lookup "Album")).getD "Unknown Album"

/-- The two skip conditions of the build_web_data loop: blank track name, or
an artist or album name that fails is_valid_name. -/
def buildRowSkipped (row : List (String × String)) : Bool :=
  if pyStrip (rowGet row "Name") = "" then true
  else !(is_valid_name (buildArtistName row)) || !(is_valid_name (buildAlbumName row))

/-- One iteration of the build_web_data CSV loop (lines 172..275 of the
source), with the wall-clock current year passed explicitly.  Skipped rows
leave the whole state untouched; processed rows append the track object and
update both maps, both metadata sets, and all running statistics. -/
def stepRow (current_year : Int) (s : BState) (row : List (String × String)) : BState :=
  let track_name := pyStrip (rowGet row "Name")
  if track_name = "" then s
  else
    let artist_name := buildArtistName row
    let album_name := buildAlbumName row
    if !(is_valid_name artist_name) || !(is_valid_name album_name) then s
    else
      let genre := sanitize_genre (safe_str (row.lookup "Genre"))
      let year := sanitize_year current_year (row.lookup "Year")
      let size := safe_int (row.lookup "Size") 0
      let duration := safe_int (row.lookup "Time") 0
      let bit_rate := safe_int (row.lookup "Bit Rate") 0
      let sample_rate := safe_int (row.lookup "Sample Rate") 0
      let track_number := safe_int (row.lookup "Track Number") 0
      let track_count := safe_int (row.lookup "Track Count") 0
      let disc_number := safe_int (row.lookup "Disc Number") 0
      let disc_count := safe_int (row.lookup "Disc Count") 0
      let play_count := safe_int (row.lookup "Play Count") 0
      let rating := safe_int (row.lookup "My Rating") 0
      let volume_adjustment := safe_int (row.lookup "Volume Adjustment") 0
      let track_id := "track-" ++ padZeros 5 s.tracks.length
      let artist_slug := slugify artist_name
      let album_slug := slugify album_name
      let track : Track :=
        ⟨track_id, track_name, artist_name, artist_slug,
         safe_str (row.lookup "Composer"), album_name, album_slug,
         safe_str (row.lookup "Grouping"), genre, year, size, duration,
         format_duration duration,
         if bit_rate > 0 then some bit_rate else none,
         if sample_rate > 0 then some sample_rate else none,
         if track_number > 0 then some track_number else none,
         if track_count > 0 then some track_count else none,
         if disc_number > 0 then some disc_number else none,
         if disc_count > 0 then some disc_count else none,
         play_count, safe_str (row.lookup "Last Played"), rating,
         safe_str (row.lookup "Date Added"), safe_str (row.lookup "Date Modified"),
         safe_str (row.lookup "Location"), safe_str (row.lookup "Kind"),
         if volume_adjustment ≠ 0 then some volume_adjustment else none,
         safe_str (row.lookup "Equalizer"), safe_str (row.lookup "Comments")⟩
      let aAcc := mapGetD s.artists_map artist_slug
      let bAcc := mapGetD s.albums_map album_slug
      ⟨s.tracks ++ [track],
       mapSet s.artists_map artist_slug
         ⟨artist_name, listAddNew aAcc.assoc album_name, aAcc.trackIds ++ [track_id]⟩,
       mapSet s.albums_map album_slug
         ⟨album_name, listAddNew bAcc.assoc artist_name, bAcc.trackIds ++ [track_id]⟩,
       (match genre with | some g => listAddNew s.genres g | none => s.genres),
       (match year with | some y => listAddNewInt s.years y | none => s.years),
       s.total_size + size,
       s.total_duration + duration,
       s.total_bitrate_sum + (if bit_rate > 0 then bit_rate else 0),
       s.bitrate_count + (if bit_rate > 0 then 1 else 0)⟩

/-- The full CSV fold of build_web_data. -/
def buildState (current_year : Int) (rows : List (List (String × String))) : BState :=
  rows.foldl (stepRow current_year) initBState

/-! ## build_web_data.py — index emission, and the extract scripts -/

/-- One emitted index entry: slug, display name, the two counts, and the
sorted associated-name list. -/
structure IdxEntry where
  slug : String
  name : String
  assocCount : Nat
  trackIds : Nat
  assoc : List String
deriving DecidableEq

/-- Index emission shared by the artist and the album index of
build_web_data: map entries in insertion order, then sort by the
lower-cased display name (Python sorted with a key function, stable). -/
def buildIndex (m : List (String × IdxAcc)) : List IdxEntry :=
  List.insertionSort (fun a b => strLe (pyLower a.name) (pyLower b.name) = true)
    (m.map (fun p => ⟨p.1, p.2.name, p.2.assoc.length, p.2.trackIds.length, sortStr p.2.assoc⟩))

/-- The dict-building step of extract_artists: key the sanitized artist,
accumulate the set of its non-empty albums. -/
def extractArtistsStep (d : List (String × List String)) (row : List (String × String)) :
    List (String × List String) :=
  let artist := sanitize_artist_name (pyStrip (rowGet row "Artist"))
  let album := pyStrip (rowGet row "Album")
  if artist = "" then d
  else
    let d1 := if d.any (fun p => p.1 == artist) then d else d ++ [(artist, [])]
    if album = "" then d1
    else d1.map (fun p => if p.1 == artist then (artist, listAddNew p.2 album) else p)

/-- extract_artists: fold the rows into the artist dict, then sort the items
(Python sorted on key-value pairs orders by the unique keys, so by the raw
artist name in code-point order) and sort each album set. -/
def extract_artists (rows : List (List (String × String))) : List (String × List String) :=
  let d := rows.foldl extractArtistsStep []
  (List.insertionSort (fun a b => strLe a.1 b.1 = true) d).map (fun p => (p.1, sortStr p.2))

/-- The dict-building step of extract_albums: key the album when it is
non-empty and valid, accumulate the set of its non-empty artists. -/
def extractAlbumsStep (d : List (String × List String)) (row : List (String × String)) :
    List (String × List String) :=
  let album := pyStrip (rowGet row "Album")
  let artist := sanitize_artist_name (pyStrip (rowGet row "Artist"))
  if album ≠ "" ∧ is_valid_name album = true then
    let d1 := if d.any (fun p => p.1 == album) then d else d ++ [(album, [])]
    if artist = "" then d1
    else d1.map (fun p => if p.1 == album then (album, listAddNew p.2 artist) else p)
  else d

/-- extract_albums: fold the rows into the album dict, then sort the items
by the unique album key in code-point order, and sort each artist set. -/
def extract_albums (rows : List (List (String × String))) : List (String × List String) :=
  let d := rows.foldl extractAlbumsStep []
  (List.insertionSort (fun a b => strLe a.1 b.1 = true) d).map (fun p => (p.1, sortStr p.2))

/-! ## Claims about the Schema Detector and Row Extractor -/

/-- Claim C1: for every first line, the detector splits on tabs, counts exact
matches of the first 15 fields against the fixed label list, reports a header
exactly when the count reaches 5, and otherwise returns the header-absent
verdict with split point 0, upon which parse_export_file uses the fixed
26-name fallback schema for the file. -/
theorem C1_detector_threshold :
    (∀ line : String, (detect_header_pattern line).1 = true ↔ 5 ≤ headerMatchCount line) ∧
    (∀ line : String, headerMatchCount line < 5 → detect_header_pattern line = (false, 0)) ∧
    (∀ fname content : String,
      headerMatchCount ((pySplitCh '\n' (pyStrip content)).headD "") < 5 →
      (parse_export_file fname content).1 = standard_headers) := by
  have hdet : ∀ line : String, headerMatchCount line < 5 →
      detect_header_pattern line = (false, 0) := by
    intro line h
    unfold detect_header_pattern
    rw [if_neg]
    exact fun hc => absurd hc (by exact Nat.not_le.mpr h)
  refine ⟨?_, hdet, ?_⟩
  · intro line
    unfold detect_header_pattern headerMatchCount
    by_cases h : 5 ≤ ((pySplitCh '\t' line).take 15).countP (fun f => detectorLabels.contains f)
    · rw [if_pos h]
      cases hf : (pySplitCh '\t' line).findIdx? (fun f => f == "Location") <;>
        simp only [hf] <;> exact iff_of_true trivial h
    · rw [if_neg h]
      exact iff_of_false (by simp) h
  · intro fname content h
    simp only [parse_export_file]
    rw [hdet _ h]
    simp

/-- Witness for C1 at a concrete two-field line with zero label matches. -/
theorem C1_witness :
    headerMatchCount "a\tb" < 5 ∧ detect_header_pattern "a\tb" = (false, 0) ∧
    headerMatchCount ((pySplitCh '\n' (pyStrip "a\tb")).headD "") < 5 ∧
    (parse_export_file "f.txt" "a\tb").1 = standard_headers :=
  ⟨by decide, C1_detector_threshold.2.1 "a\tb" (by decide), by decide,
   C1_detector_threshold.2.2 "f.txt" "a\tb" (by decide)⟩

/-- Counterexample to claim C2: a line with five label matches among its
first 15 fields, no Location field among them, but a Location field later in
the line.  The code takes the split point from that late occurrence (21),
not from the claimed fallback min 27 (21 / 2) = 10, because the source
searches fields.index of Location over the whole field list, not over the
matched fields. -/
theorem C2_counterexample :
    5 ≤ headerMatchCount "Name\tArtist\tComposer\tAlbum\tGenre\tx\tx\tx\tx\tx\tx\tx\tx\tx\tx\tx\tx\tx\tx\tx\tLocation" ∧
    ((pySplitCh '\t' "Name\tArtist\tComposer\tAlbum\tGenre\tx\tx\tx\tx\tx\tx\tx\tx\tx\tx\tx\tx\tx\tx\tx\tLocation").take 15).contains "Location" = false ∧
    detect_header_pattern "Name\tArtist\tComposer\tAlbum\tGenre\tx\tx\tx\tx\tx\tx\tx\tx\tx\tx\tx\tx\tx\tx\tx\tLocation" = (true, 21) ∧
    min 27 ((pySplitCh '\t' "Name\tArtist\tComposer\tAlbum\tGenre\tx\tx\tx\tx\tx\tx\tx\tx\tx\tx\tx\tx\tx\tx\tx\tLocation").length / 2) = 10 := by
  refine ⟨by decide, by decide, by decide, by decide⟩

/-- Claim C2 as amended: with a header detected, the split point is the index
of the first occurrence of the Location label among all tab-fields of the
line plus one, and only when Location occurs nowhere in the line does the
detector fall back to min 27 (fieldCount / 2). -/
theorem C2_split_point_amended :
    ∀ line : String, 5 ≤ headerMatchCount line →
      (∀ i, (pySplitCh '\t' line).findIdx? (fun f => f == "Location") = some i →
        detect_header_pattern line = (true, i + 1)) ∧
      ((pySplitCh '\t' line).findIdx? (fun f => f == "Location") = none →
        detect_header_pattern line = (true, min 27 ((pySplitCh '\t' line).length / 2))) := by
  intro line h
  unfold headerMatchCount at h
  constructor
  · intro i hf
    simp only [detect_header_pattern]
    rw [if_pos h, hf]
  · intro hf
    simp only [detect_header_pattern]
    rw [if_pos h, hf]

/-- Witness for the amended C2 on both branches: a line with Location at
index 6, and a five-label line without Location. -/
theorem C2_witness :
    5 ≤ headerMatchCount "Name\tArtist\tComposer\tAlbum\tGenre\tTime\tLocation" ∧
    detect_header_pattern "Name\tArtist\tComposer\tAlbum\tGenre\tTime\tLocation" = (true, 7) ∧
    5 ≤ headerMatchCount "Name\tArtist\tComposer\tAlbum\tGenre" ∧
    detect_header_pattern "Name\tArtist\tComposer\tAlbum\tGenre" = (true, 2) :=
  ⟨by decide,
   (C2_split_point_amended "Name\tArtist\tComposer\tAlbum\tGenre\tTime\tLocation" (by decide)).1
     6 (by decide),
   by decide,
   (C2_split_point_amended "Name\tArtist\tComposer\tAlbum\tGenre" (by decide)).2 (by decide)⟩

/-- Claim C3: with a header-present verdict and split point p, a first line
with strictly more than p + 5 tab-fields is classified inline-header-and-data
and parsed with the first p fields as column names, one data record zipped
from the remaining first-line fields stamped with line number 1, and the
later lines as data; otherwise the line is classified separate-header and the
data records come from the later lines only.  The concrete scenario line
yields split point 7, the seven-label header and one data row from fields
7..13. -/
theorem C3_inline_vs_separate :
    (∀ (fname content : String) (p : Nat) (lines : List String) (fl : String)
        (fields : List String),
      lines = pySplitCh '\n' (pyStrip content) →
      fl = lines.headD "" →
      fields = pySplitCh '\t' fl →
      detect_header_pattern fl = (true, p) →
      (fields.length > p + 5 →
        classify_format fl = .inlineHeaderAndData ∧
        parse_export_file fname content =
          (fields.take p,
           ⟨mkRowFields (fields.take p) (fields.drop p), fname, 1⟩ ::
             dataRows fname (fields.take p) (lines.drop 1) 2)) ∧
      (¬(fields.length > p + 5) →
        classify_format fl = .separateHeader ∧
        parse_export_file fname content =
          (fields.take p, dataRows fname (fields.take p) (lines.drop 1) 2))) ∧
    detect_header_pattern "Name\tArtist\tAlbum\tGenre\tSize\tTime\tLocation\tSong A\tArtist A\tAlbum A\tRock\t1000\t200\tfile:///a" = (true, 7) ∧
    classify_format "Name\tArtist\tAlbum\tGenre\tSize\tTime\tLocation\tSong A\tArtist A\tAlbum A\tRock\t1000\t200\tfile:///a" = .inlineHeaderAndData ∧
    parse_export_file "export.txt" "Name\tArtist\tAlbum\tGenre\tSize\tTime\tLocation\tSong A\tArtist A\tAlbum A\tRock\t1000\t200\tfile:///a" =
      (["Name", "Artist", "Album", "Genre", "Size", "Time", "Location"],
       [⟨[("Name", "Song A"), ("Artist", "Artist A"), ("Album", "Album A"),
          ("Genre", "Rock"), ("Size", "1000"), ("Time", "200"),
          ("Location", "file:///a")], "export.txt", 1⟩]) := by
  refine ⟨?_, by decide, by decide, by decide⟩
  intro fname content p lines fl fields hlines hfl hfields hdet
  constructor
  · intro hlen
    constructor
    · simp only [classify_format, hdet]
      rw [if_pos]
      exact ⟨trivial, by rw [← hfields]; exact hlen⟩
    · simp only [parse_export_file, ← hlines, ← hfl, hdet, ← hfields]
      rw [if_pos trivial, if_pos hlen]
  · intro hlen
    constructor
    · simp only [classify_format, hdet]
      rw [if_neg, if_pos trivial]
      intro hc
      exact hlen (by rw [hfields]; exact hc.2)
    · simp only [parse_export_file, ← hlines, ← hfl, hdet, ← hfields]
      rw [if_pos trivial, if_neg hlen]

/-- Witness for C3 at the concrete scenario line. -/
theorem C3_witness :
    detect_header_pattern "Name\tArtist\tAlbum\tGenre\tSize\tTime\tLocation\tSong A\tArtist A\tAlbum A\tRock\t1000\t200\tfile:///a" = (true, 7) ∧
    (pySplitCh '\t' "Name\tArtist\tAlbum\tGenre\tSize\tTime\tLocation\tSong A\tArtist A\tAlbum A\tRock\t1000\t200\tfile:///a").length > 7 + 5 ∧
    classify_format "Name\tArtist\tAlbum\tGenre\tSize\tTime\tLocation\tSong A\tArtist A\tAlbum A\tRock\t1000\t200\tfile:///a" = FormatVerdict.inlineHeaderAndData :=
  ⟨by decide, by decide,
   ((C3_inline_vs_separate.1 "export.txt"
      "Name\tArtist\tAlbum\tGenre\tSize\tTime\tLocation\tSong A\tArtist A\tAlbum A\tRock\t1000\t200\tfile:///a" 7
      (pySplitCh '\n' (pyStrip "Name\tArtist\tAlbum\tGenre\tSize\tTime\tLocation\tSong A\tArtist A\tAlbum A\tRock\t1000\t200\tfile:///a"))
      "Name\tArtist\tAlbum\tGenre\tSize\tTime\tLocation\tSong A\tArtist A\tAlbum A\tRock\t1000\t200\tfile:///a"
      (pySplitCh '\t' "Name\tArtist\tAlbum\tGenre\tSize\tTime\tLocation\tSong A\tArtist A\tAlbum A\tRock\t1000\t200\tfile:///a")
      rfl (by decide) rfl (by decide)).1 (by decide)).1⟩

/-! ## Claim about the Corpus Deduplicator -/

/-- The seen-set of the loop keeps only the tuples of kept records, while the
claim speaks of the tuples of all earlier records; the two agree because a
dropped record's tuple is already in the set. -/
theorem dedupGo_eq_claimFilter (unified : List String) :
    ∀ (rows : List RawRecord) (seen prev : List (List String)),
      (∀ t, t ∈ seen ↔ t ∈ prev) →
      dedupGo unified seen rows = claimFilter unified prev rows := by
  intro rows
  induction rows with
  | nil => intro seen prev _; rfl
  | cons r rest ih =>
    intro seen prev h
    unfold dedupGo claimFilter
    by_cases hm : contentTuple unified r ∈ seen
    · rw [if_pos hm, if_pos ((h _).mp hm)]
      refine ih seen (contentTuple unified r :: prev) (fun t => ⟨?_, ?_⟩)
      · intro ht; exact List.mem_cons_of_mem _ ((h t).mp ht)
      · intro ht
        rcases List.mem_cons.mp ht with he | hp
        · rw [he]; exact hm
        · exact (h t).mpr hp
    · rw [if_neg hm, if_neg (fun hp => hm ((h _).mpr hp))]
      rw [ih (contentTuple unified r :: seen) (contentTuple unified r :: prev)
        (fun t => by simp [h t])]

/-- The survivors of the deduplication loop form a subsequence of the input,
each record kept unchanged. -/
theorem dedupGo_sublist (unified : List String) :
    ∀ (rows : List RawRecord) (seen : List (List String)),
      (dedupGo unified seen rows).Sublist rows := by
  intro rows
  induction rows with
  | nil => intro seen; exact List.Sublist.refl []
  | cons r rest ih =>
    intro seen
    unfold dedupGo
    by_cases hm : contentTuple unified r ∈ seen
    · rw [if_pos hm]; exact (ih seen).cons r
    · rw [if_neg hm]; exact (ih _).cons₂ r

/-- Claim C4: the deduplicator keeps exactly the records whose content tuple
over the canonical non-provenance columns did not occur earlier in traversal
order, keeps them unchanged (provenance included) as a subsequence of the
input, and reports input length minus output length as the removed count. -/
theorem C4_dedup_first_occurrence :
    ∀ (unified : List String) (rows : List RawRecord),
      (dedupResult unified rows).1 = claimFilter unified [] rows ∧
      (dedupResult unified rows).1.Sublist rows ∧
      (dedupResult unified rows).2 = rows.length - (dedupResult unified rows).1.length := by
  intro unified rows
  refine ⟨dedupGo_eq_claimFilter unified rows [] [] (fun t => Iff.rfl), ?_, rfl⟩
  exact dedupGo_sublist unified rows []

/-! ## Claims about the Normalization Layer -/

/-- Claim C7: sanitize_year returns a year exactly when the integer
truncation of the parsed input lies between 1000 and the current calendar
year inclusive, and returns nothing otherwise; 1899 is retained, 3000 is
rejected for any current year from 2024 up to 2999, and parsing truncates
fractional values. -/
theorem C7_year_range :
    (∀ (current_year : Int) (v : Option String) (y : Int),
      sanitize_year current_year v = some y ↔
        (safe_int v 0 = y ∧ 1000 ≤ y ∧ y ≤ current_year)) ∧
    sanitize_year 2024 (some "1899") = some 1899 ∧
    (∀ current_year : Int, 2024 ≤ current_year → current_year < 3000 →
      sanitize_year current_year (some "3000") = none) ∧
    safe_int (some "12.9") 0 = 12 := by
  refine ⟨?_, by decide, ?_, by decide⟩
  · intro current_year v y
    unfold sanitize_year
    by_cases h0 : safe_int v 0 ≤ 0
    · rw [if_pos h0]
      constructor
      · intro hc; exact absurd hc (by simp)
      · rintro ⟨he, h1, _⟩; omega
    · rw [if_neg h0]
      by_cases hr : 1000 ≤ safe_int v 0 ∧ safe_int v 0 ≤ current_year
      · rw [if_pos hr]
        constructor
        · intro hc
          have : safe_int v 0 = y := Option.some.inj hc
          exact ⟨this, by omega, by omega⟩
        · rintro ⟨he, _, _⟩; rw [he]
      · rw [if_neg hr]
        constructor
        · intro hc; exact absurd hc (by simp)
        · rintro ⟨he, h1, h2⟩; exact absurd ⟨by omega, by omega⟩ hr
  · intro current_year h1 h2
    have h3 : safe_int (some "3000") 0 = 3000 := by decide
    unfold sanitize_year
    rw [h3, if_neg (by omega), if_neg (by omega)]

/-- Witness for C7: the range theorem applied at current year 2024 and input
1899, and the 3000 rejection applied at current year 2024. -/
theorem C7_witness :
    (safe_int (some "1899") 0 = 1899 ∧ (1000 : Int) ≤ 1899 ∧ (1899 : Int) ≤ 2024) ∧
    sanitize_year 2024 (some "1899") = some 1899 ∧
    ((2024 : Int) ≤ 2024 ∧ (2024 : Int) < 3000 ∧ sanitize_year 2024 (some "3000") = none) :=
  ⟨⟨by decide, by decide, by decide⟩,
   (C7_year_range.1 2024 (some "1899") 1899).mpr ⟨by decide, by decide, by decide⟩,
   ⟨by decide, by decide, C7_year_range.2.2.1 2024 (by decide) (by decide)⟩⟩

/-- Claim C10: a CSV row whose trimmed Name is empty, or whose derived artist
or album name fails the validity test, is skipped entirely by the
build_web_data loop: the whole accumulated state, with the track list, both
maps, the genre and year sets and every statistic, is left unchanged. -/
theorem C10_skipped_rows_contribute_nothing :
    ∀ (current_year : Int) (s : BState) (row : List (String × String)),
      buildRowSkipped row = true → stepRow current_year s row = s := by
  intro current_year s row h
  unfold buildRowSkipped at h
  unfold stepRow
  by_cases hname : pyStrip (rowGet row "Name") = ""
  · rw [if_pos hname]
  · rw [if_neg hname]
    rw [if_neg hname] at h
    simp only [if_pos h]

/-- Witness for C10: a row with a question-mark artist leaves a nonempty
state untouched. -/
theorem C10_witness :
    buildRowSkipped [("Name", "x"), ("Artist", "???"), ("Album", "A")] = true ∧
    stepRow 2024 ⟨[], [], [], ["Rock"], [1999], 5, 6, 7, 8⟩
      [("Name", "x"), ("Artist", "???"), ("Album", "A")] =
      ⟨[], [], [], ["Rock"], [1999], 5, 6, 7, 8⟩ :=
  ⟨by decide,
   C10_skipped_rows_contribute_nothing 2024 ⟨[], [], [], ["Rock"], [1999], 5, 6, 7, 8⟩
     [("Name", "x"), ("Artist", "???"), ("Album", "A")] (by decide)⟩

/-- Claim C6: sanitize_artist_name first strips leading and trailing quote
markers (the three-character and the one-character token), then moves the
first case-insensitively matching trailing article of the fixed list to the
front without the comma, attempting no further matches; the list search of
findArticleSuffix is the first-match loop.  Concretely, Beatles comma The
becomes The Beatles and triple-quoted Prince becomes Prince. -/
theorem C6_artist_sanitizer :
    (∀ name article : String,
      findArticleSuffix (quoteTrimmed name) = some article →
      sanitize_artist_name name =
        pyStrip (String.mk (article.toList.drop 2) ++ " " ++
          String.mk ((quoteTrimmed name).toList.take
            ((quoteTrimmed name).toList.length - article.toList.length)))) ∧
    (∀ name : String,
      findArticleSuffix (quoteTrimmed name) = none →
      sanitize_artist_name name = pyStrip (quoteTrimmed name)) ∧
    sanitize_artist_name "Beatles, The" = "The Beatles" ∧
    sanitize_artist_name "\"\"\"Prince\"\"\"" = "Prince" := by
  refine ⟨?_, ?_, by decide, by decide⟩
  · intro name article h
    simp only [sanitize_artist_name]
    rw [h]
  · intro name h
    simp only [sanitize_artist_name]
    rw [h]

/-- Witness for C6: the article branch at the Beatles input with the first
matching suffix, and the no-article branch at plain Prince. -/
theorem C6_witness :
    findArticleSuffix (quoteTrimmed "Beatles, The") = some ", The" ∧
    sanitize_artist_name "Beatles, The" =
      pyStrip (String.mk ((", The" : String).toList.drop 2) ++ " " ++
        String.mk ((quoteTrimmed "Beatles, The").toList.take
          ((quoteTrimmed "Beatles, The").toList.length - (", The" : String).toList.length))) ∧
    findArticleSuffix (quoteTrimmed "Prince") = none ∧
    sanitize_artist_name "Prince" = pyStrip (quoteTrimmed "Prince") :=
  ⟨by decide, C6_artist_sanitizer.1 "Beatles, The" ", The" (by decide),
   by decide, C6_artist_sanitizer.2.1 "Prince" (by decide)⟩

/-! ## Order lemmas for the code-point string order used by Python sorted -/

/-- Totality of the lexicographic code-point order. -/
theorem lexLe_total : ∀ a b : List Char, lexLe a b = true ∨ lexLe b a = true := by
  intro a
  induction a with
  | nil => intro b; left; rfl
  | cons x as ih =>
    intro b
    cases b with
    | nil => right; rfl
    | cons y bs =>
      rcases lt_trichotomy x y with h | h | h
      · left; simp [lexLe, h]
      · subst h
        simp only [lexLe, if_neg (lt_irrefl x)]
        exact ih bs
      · right; simp [lexLe, h]

/-- Transitivity of the lexicographic code-point order. -/
theorem lexLe_trans : ∀ a b c : List Char,
    lexLe a b = true → lexLe b c = true → lexLe a c = true := by
  intro a
  induction a with
  | nil => intro b c _ _; rfl
  | cons x as ih =>
    intro b c h1 h2
    cases b with
    | nil => simp [lexLe] at h1
    | cons y bs =>
      cases c with
      | nil => simp [lexLe] at h2
      | cons z cs =>
        simp only [lexLe] at h1 h2 ⊢
        by_cases hxy : x < y
        · by_cases hyz : y < z
          · rw [if_pos (lt_trans hxy hyz)]
          · by_cases hzy : z < y
            · rw [if_neg hyz, if_pos hzy] at h2; exact absurd h2 (by simp)
            · have hyz2 : y = z := le_antisymm (not_lt.mp hzy) (not_lt.mp hyz)
              subst hyz2
              rw [if_pos hxy]
        · by_cases hyx : y < x
          · rw [if_neg hxy, if_pos hyx] at h1; exact absurd h1 (by simp)
          · have hxy2 : x = y := le_antisymm (not_lt.mp hyx) (not_lt.mp hxy)
            subst hxy2
            rw [if_neg hxy, if_neg hxy] at h1
            by_cases hxz : x < z
            · rw [if_pos hxz]
            · by_cases hzx : z < x
              · rw [if_neg hxz, if_pos hzx] at h2; exact absurd h2 (by simp)
              · have hxz2 : x = z := le_antisymm (not_lt.mp hzx) (not_lt.mp hxz)
                subst hxz2
                rw [if_neg hxz, if_neg hxz] at h2 ⊢
                exact ih bs cs h1 h2

/-- Antisymmetry of the lexicographic code-point order. -/
theorem lexLe_antisymm : ∀ a b : List Char,
    lexLe a b = true → lexLe b a = true → a = b := by
  intro a
  induction a with
  | nil =>
    intro b h1 h2
    cases b with
    | nil => rfl
    | cons y bs => simp [lexLe] at h2
  | cons x as ih =>
    intro b h1 h2
    cases b with
    | nil => simp [lexLe] at h1
    | cons y bs =>
      simp only [lexLe] at h1 h2
      by_cases hxy : x < y
      · rw [if_neg (lt_asymm hxy), if_pos hxy] at h2; exact absurd h2 (by simp)
      · by_cases hyx : y < x
        · rw [if_neg hxy, if_pos hyx] at h1; exact absurd h1 (by simp)
        · have hxy2 : x = y := le_antisymm (not_lt.mp hyx) (not_lt.mp hxy)
          subst hxy2
          rw [if_neg hxy, if_neg hxy] at h1 h2
          rw [ih bs h1 h2]

/-- Strings with equal character lists are equal. -/
theorem strOfToList_inj {s t : String} (h : s.toList = t.toList) : s = t := by
  cases s; cases t
  exact congrArg String.mk (by simpa [String.toList] using h)

instance : IsTotal String (fun a b => strLe a b = true) :=
  ⟨fun a b => lexLe_total a.toList b.toList⟩

instance : IsTrans String (fun a b => strLe a b = true) :=
  ⟨fun a b c => lexLe_trans a.toList b.toList c.toList⟩

instance : IsAntisymm String (fun a b => strLe a b = true) :=
  ⟨fun a b h1 h2 => strOfToList_inj (lexLe_antisymm _ _ h1 h2)⟩

instance : IsTotal IdxEntry (fun a b => strLe (pyLower a.name) (pyLower b.name) = true) :=
  ⟨fun a b => lexLe_total _ _⟩

instance : IsTrans IdxEntry (fun a b => strLe (pyLower a.name) (pyLower b.name) = true) :=
  ⟨fun a b c => lexLe_trans _ _ _⟩

instance : IsTotal (String × List String) (fun p q => strLe p.1 q.1 = true) :=
  ⟨fun a b => lexLe_total _ _⟩

instance : IsTrans (String × List String) (fun p q => strLe p.1 q.1 = true) :=
  ⟨fun a b c => lexLe_trans _ _ _⟩

/-! ## Claim about the Schema Unifier -/

/-- Membership in the folded union of header lists. -/
theorem mem_foldl_append :
    ∀ (l : List (List String)) (acc : List String) (a : String),
      (a ∈ l.foldl (fun acc hs => acc ++ hs) acc) ↔ (a ∈ acc ∨ ∃ t ∈ l, a ∈ t) := by
  intro l
  induction l with
  | nil => intro acc a; simp
  | cons hd tl ih =>
    intro acc a
    rw [List.foldl_cons, ih]
    simp [List.mem_append, or_assoc]

/-- The union collection contains exactly the names observed in some header
set. -/
theorem mem_allFieldsOf (hss : List (List String)) (a : String) :
    a ∈ allFieldsOf hss ↔ ∃ t ∈ hss, a ∈ t := by
  unfold allFieldsOf
  rw [List.mem_dedup, mem_foldl_append]
  simp

/-- Boolean contains agrees across membership-equivalent lists. -/
theorem contains_eq_of_mem_iff {l l' : List String} (h : ∀ a, a ∈ l ↔ a ∈ l')
    (f : String) : l.contains f = l'.contains f := by
  have hf := h f
  cases hc : l.contains f <;> cases hc' : l'.contains f <;> simp_all

/-- Python sorted of a set: two duplicate-free lists with the same members
sort to the same list. -/
theorem sortStr_eq_of_mem {l l' : List String} (hn : l.Nodup) (hn' : l'.Nodup)
    (h : ∀ a, a ∈ l ↔ a ∈ l') : sortStr l = sortStr l' := by
  have hperm : l.Perm l' := (List.perm_ext_iff_of_nodup hn hn').mpr h
  have h1 : (sortStr l).Perm (sortStr l') :=
    ((List.perm_insertionSort _ l).trans hperm).trans (List.perm_insertionSort _ l').symm
  exact List.eq_of_perm_of_sorted h1
    (List.sorted_insertionSort _ l) (List.sorted_insertionSort _ l')

/-- Claim C5: the Schema Unifier is a function of the union of the observed
header sets alone — membership-equivalent inputs (so permuted or duplicated
header-set lists, and a fortiori a repeated run on the same input) produce
the identical canonical column list — and its output is the preferred-order
names present in the union, then the remaining non-provenance union names
sorted lexicographically, then the two provenance columns. -/
theorem C5_unifier_canonical_order :
    ∀ hss hss' : List (List String),
      (∀ s, (∃ t ∈ hss, s ∈ t) ↔ (∃ t ∈ hss', s ∈ t)) →
      get_unified_headers hss = get_unified_headers hss' ∧
      get_unified_headers hss = unifiedSpecForm hss := by
  intro hss hss' hmem
  have hA : ∀ f, f ∈ allFieldsOf hss ↔ f ∈ allFieldsOf hss' := by
    intro f; rw [mem_allFieldsOf, mem_allFieldsOf]; exact hmem f
  constructor
  · simp only [get_unified_headers]
    have hUnified : preferred_order.filter (fun f => (allFieldsOf hss).contains f) =
        preferred_order.filter (fun f => (allFieldsOf hss').contains f) :=
      List.filter_congr (fun x _ => contains_eq_of_mem_iff hA x)
    rw [hUnified]
    have hRem : sortStr ((allFieldsOf hss).filter
        (fun f => !((preferred_order.filter (fun g => (allFieldsOf hss').contains g)).contains f) &&
          !(f == "_source_file") && !(f == "_line_number"))) =
        sortStr ((allFieldsOf hss').filter
        (fun f => !((preferred_order.filter (fun g => (allFieldsOf hss').contains g)).contains f) &&
          !(f == "_source_file") && !(f == "_line_number"))) := by
      refine sortStr_eq_of_mem ((List.nodup_dedup _).filter _) ((List.nodup_dedup _).filter _) ?_
      intro a
      rw [List.mem_filter, List.mem_filter, hA a]
    rw [hRem]
  · simp only [get_unified_headers, unifiedSpecForm]
    congr 1
    congr 1
    refine congrArg sortStr (List.filter_congr ?_)
    intro f hf
    have : (preferred_order.filter (fun g => (allFieldsOf hss).contains g)).contains f =
        preferred_order.contains f := by
      cases h1 : (preferred_order.filter (fun g => (allFieldsOf hss).contains g)).contains f <;>
        cases h2 : preferred_order.contains f <;> simp_all [List.mem_filter]
    rw [this]

/-- Witness for C5 on a permuted and duplicated pair of header-set lists. -/
theorem C5_witness :
    (∀ s : String, (∃ t ∈ [["Year", "Foo"], ["Name"]], s ∈ t) ↔
        (∃ t ∈ [["Name"], ["Year"], ["Foo", "Name"]], s ∈ t)) ∧
    get_unified_headers [["Year", "Foo"], ["Name"]] =
      get_unified_headers [["Name"], ["Year"], ["Foo", "Name"]] ∧
    get_unified_headers [["Year", "Foo"], ["Name"]] =
      unifiedSpecForm [["Year", "Foo"], ["Name"]] := by
  have h : ∀ s : String, (∃ t ∈ [["Year", "Foo"], ["Name"]], s ∈ t) ↔
      (∃ t ∈ [["Name"], ["Year"], ["Foo", "Name"]], s ∈ t) := by
    intro s
    constructor <;> (intro hs; simp at hs ⊢; tauto)
  exact ⟨h, (C5_unifier_canonical_order _ _ h).1, (C5_unifier_canonical_order _ _ h).2⟩

/-! ## Claim about index ordering -/

/-- Counterexample to claim C8: extract_artists sorts its index by the raw
display name in code-point order, so artist B precedes artist a, and that
adjacent pair is out of order under case-insensitive comparison. -/
theorem C8_counterexample :
    extract_artists [[("Artist", "a"), ("Album", "X")], [("Artist", "B"), ("Album", "Y")]] =
      [("B", ["Y"]), ("a", ["X"])] ∧
    strLe (pyLower "B") (pyLower "a") = false := by
  refine ⟨by decide, by decide⟩

/-- Claim C8 as amended: the artist and album indexes emitted by
build_web_data are sorted by display name compared case-insensitively
(adjacent entries are ordered by their lower-cased names), while the indexes
emitted by extract_artists and extract_albums are sorted by display name in
case-sensitive code-point order. -/
theorem C8_index_sorting_amended :
    (∀ (current_year : Int) (rows : List (List (String × String))),
      List.Chain' (fun a b => strLe (pyLower a.name) (pyLower b.name) = true)
        (buildIndex (buildState current_year rows).artists_map) ∧
      List.Chain' (fun a b => strLe (pyLower a.name) (pyLower b.name) = true)
        (buildIndex (buildState current_year rows).albums_map)) ∧
    (∀ rows : List (List (String × String)),
      List.Chain' (fun p q => strLe p.1 q.1 = true) (extract_artists rows) ∧
      List.Chain' (fun p q => strLe p.1 q.1 = true) (extract_albums rows)) := by
  have hIdx : ∀ m : List (String × IdxAcc),
      List.Chain' (fun a b => strLe (pyLower a.name) (pyLower b.name) = true) (buildIndex m) := by
    intro m
    exact List.Pairwise.chain' (List.sorted_insertionSort _ _)
  have hExtract : ∀ d : List (String × List String),
      List.Chain' (fun p q => strLe p.1 q.1 = true)
        ((List.insertionSort (fun a b => strLe a.1 b.1 = true) d).map
          (fun p => (p.1, sortStr p.2))) := by
    intro d
    refine List.Pairwise.chain' (List.pairwise_map.mpr ?_)
    exact List.sorted_insertionSort (fun a b => strLe a.1 b.1 = true) d
  exact ⟨fun current_year rows => ⟨hIdx _, hIdx _⟩,
    fun rows => ⟨hExtract _, hExtract _⟩⟩

/-! ## Character-level lemmas for slugify -/

/-- Char.ofNat inverts toNat on valid code points below the surrogate range. -/
theorem charOfNat_toNat (n : Nat) (h : n < 55296) : (Char.ofNat n).toNat = n := by
  unfold Char.ofNat
  rw [dif_pos (Or.inl h)]
  simp [Char.ofNatAux, Char.toNat, UInt32.toNat]

/-- Lower-casing an ASCII upper-case character lands 32 code points higher. -/
theorem pyLowerChar_toNat_of_upper {c : Char} (h : 65 ≤ c.toNat ∧ c.toNat ≤ 90) :
    (pyLowerChar c).toNat = c.toNat + 32 := by
  unfold pyLowerChar
  rw [if_pos h]
  exact charOfNat_toNat _ (by omega)

/-- A character outside the ASCII upper-case range is fixed by lower-casing. -/
theorem pyLowerChar_fixed {c : Char} (h : ¬(65 ≤ c.toNat ∧ c.toNat ≤ 90)) :
    pyLowerChar c = c := by
  unfold pyLowerChar
  rw [if_neg h]

/-- No lower-cased character is ASCII upper-case. -/
theorem pyLowerChar_not_upper (c : Char) :
    ¬(65 ≤ (pyLowerChar c).toNat ∧ (pyLowerChar c).toNat ≤ 90) := by
  by_cases h : 65 ≤ c.toNat ∧ c.toNat ≤ 90
  · rw [pyLowerChar_toNat_of_upper h]; omega
  · rw [pyLowerChar_fixed h]; exact h

/-- ASCII lower-casing is idempotent. -/
theorem pyLowerChar_idem (c : Char) : pyLowerChar (pyLowerChar c) = pyLowerChar c :=
  pyLowerChar_fixed (pyLowerChar_not_upper c)

/-- Every character the collapse emits is a hyphen or a non-separator
character of the input. -/
theorem mem_collapseGo :
    ∀ (l : List Char) (b : Bool) (c : Char), c ∈ collapseGo b l →
      c = '-' ∨ (c ∈ l ∧ isSepCh c = false) := by
  intro l
  induction l with
  | nil => intro b c hc; simp [collapseGo] at hc
  | cons x rest ih =>
    intro b c hc
    unfold collapseGo at hc
    by_cases hx : isSepCh x = true
    · rw [if_pos hx] at hc
      cases b with
      | true =>
        simp only [if_pos rfl] at hc
        rcases ih true c hc with h | ⟨h1, h2⟩
        · exact Or.inl h
        · exact Or.inr ⟨List.mem_cons_of_mem _ h1, h2⟩
      | false =>
        simp only [Bool.false_eq_true, if_false] at hc
        rcases List.mem_cons.mp hc with h | h
        · exact Or.inl h
        · rcases ih true c h with h | ⟨h1, h2⟩
          · exact Or.inl h
          · exact Or.inr ⟨List.mem_cons_of_mem _ h1, h2⟩
    · rw [if_neg hx] at hc
      rcases List.mem_cons.mp hc with h | h
      · subst h
        exact Or.inr ⟨List.mem_cons_self _ _, by simpa using hx⟩
      · rcases ih false c h with h | ⟨h1, h2⟩
        · exact Or.inl h
        · exact Or.inr ⟨List.mem_cons_of_mem _ h1, h2⟩

/-- Inside a separator run the collapse emits nothing until a non-separator
character arrives, so its head is never a separator. -/
theorem head_collapseGo_true :
    ∀ (l : List Char) (c : Char), (collapseGo true l).head? = some c →
      isSepCh c = false := by
  intro l
  induction l with
  | nil => intro c hc; simp [collapseGo] at hc
  | cons x rest ih =>
    intro c hc
    unfold collapseGo at hc
    by_cases hx : isSepCh x = true
    · rw [if_pos hx] at hc
      simp only [if_pos rfl] at hc
      exact ih c hc
    · rw [if_neg hx] at hc
      have : x = c := by simpa using hc
      subst this
      simpa using hx

/-- The collapse never emits two adjacent separator characters. -/
theorem chain_collapseGo :
    ∀ (l : List Char) (b : Bool),
      List.Chain' (fun a c => isSepCh a = false ∨ isSepCh c = false) (collapseGo b l) := by
  intro l
  induction l with
  | nil => intro b; simp [collapseGo]
  | cons x rest ih =>
    intro b
    unfold collapseGo
    by_cases hx : isSepCh x = true
    · rw [if_pos hx]
      cases b with
      | true => simpa only [if_pos rfl] using ih true
      | false =>
        simp only [Bool.false_eq_true, if_false]
        rw [List.chain'_cons']
        refine ⟨?_, ih true⟩
        intro y hy
        exact Or.inr (head_collapseGo_true rest y hy)
    · rw [if_neg hx]
      rw [List.chain'_cons']
      refine ⟨?_, ih false⟩
      intro y _
      exact Or.inl (by simpa using hx)

/-- When the next character is not a separator, the run flag is irrelevant. -/
theorem collapseGo_true_eq_false (l : List Char)
    (h : ∀ c, l.head? = some c → isSepCh c = false) :
    collapseGo true l = collapseGo false l := by
  cases l with
  | nil => rfl
  | cons x rest =>
    have hx : isSepCh x = false := h x rfl
    unfold collapseGo
    rw [if_neg (by simp [hx]), if_neg (by simp [hx])]

/-- A whitespace-free list with no two adjacent separators is a fixed point
of the collapse. -/
theorem collapseGo_fixed :
    ∀ l : List Char, (∀ c ∈ l, isPySpace c = false) →
      List.Chain' (fun a c => isSepCh a = false ∨ isSepCh c = false) l →
      collapseGo false l = l := by
  intro l
  induction l with
  | nil => intro _ _; rfl
  | cons x rest ih =>
    intro hsp hch
    unfold collapseGo
    by_cases hx : isSepCh x = true
    · rw [if_pos hx]
      simp only [Bool.false_eq_true, if_false]
      have hxd : x = '-' := by
        have hs := hsp x (List.mem_cons_self x rest)
        unfold isSepCh at hx
        simpa [hs] using hx
      have hhead : ∀ c, rest.head? = some c → isSepCh c = false := by
        intro c hc
        have hrel := (List.chain'_cons'.mp hch).1 c (by rw [hc]; rfl)
        rcases hrel with h1 | h2
        · exact absurd hx (by simp [h1])
        · exact h2
      rw [collapseGo_true_eq_false rest hhead]
      rw [ih (fun c hc => hsp c (List.mem_cons_of_mem _ hc)) hch.tail]
      rw [hxd]
    · rw [if_neg hx]
      rw [ih (fun c hc => hsp c (List.mem_cons_of_mem _ hc)) hch.tail]

/-- After dropWhile the head no longer satisfies the predicate. -/
theorem head_dropWhile_not (p : Char → Bool) :
    ∀ (l : List Char) (c : Char), (l.dropWhile p).head? = some c → p c = false := by
  intro l
  induction l with
  | nil => intro c hc; simp at hc
  | cons x rest ih =>
    intro c hc
    rw [List.dropWhile_cons] at hc
    by_cases hx : p x = true
    · rw [if_pos hx] at hc; exact ih c hc
    · rw [if_neg hx] at hc
      have : x = c := by simpa using hc
      subst this
      simpa using hx

/-- dropWhile is the identity when the head already fails the predicate. -/
theorem dropWhile_eq_self_of_head (p : Char → Bool) (l : List Char)
    (h : ∀ c, l.head? = some c → p c = false) : l.dropWhile p = l := by
  cases l with
  | nil => rfl
  | cons x rest => rw [List.dropWhile_cons, if_neg (by simp [h x rfl])]

/-- dropWhile keeps a contiguous suffix, so chains survive it. -/
theorem chain_dropWhile {R : Char → Char → Prop} (p : Char → Bool) :
    ∀ l : List Char, List.Chain' R l → List.Chain' R (l.dropWhile p) := by
  intro l
  induction l with
  | nil => intro h; exact h
  | cons x rest ih =>
    intro h
    rw [List.dropWhile_cons]
    by_cases hx : p x = true
    · rw [if_pos hx]; exact ih h.tail
    · rw [if_neg hx]; exact h

/-- dropWhile keeps the last element of the list when it keeps anything. -/
theorem getLast_dropWhile (p : Char → Bool) :
    ∀ l : List Char, l.dropWhile p ≠ [] → (l.dropWhile p).getLast? = l.getLast? := by
  intro l
  induction l with
  | nil => intro h; simp at h
  | cons x rest ih =>
    intro h
    rw [List.dropWhile_cons] at h ⊢
    by_cases hx : p x = true
    · rw [if_pos hx] at h ⊢
      rw [ih h]
      cases rest with
      | nil => simp [List.dropWhile] at h
      | cons y t => rw [List.getLast?_cons_cons]
    · rw [if_neg hx]

/-- Characters of the hyphen-stripped list come from the input. -/
theorem mem_stripDashes (l : List Char) (c : Char) (h : c ∈ stripDashes l) : c ∈ l := by
  unfold stripDashes at h
  have h1 := (List.dropWhile_sublist _).subset (List.mem_reverse.mp h)
  have h2 := List.mem_reverse.mp h1
  exact (List.dropWhile_sublist _).subset h2

/-- Chains survive hyphen stripping (both ends are contiguous cuts). -/
theorem chain_stripDashes {R : Char → Char → Prop}
    (l : List Char) (h : List.Chain' R l) : List.Chain' R (stripDashes l) := by
  unfold stripDashes
  rw [List.chain'_reverse]
  refine chain_dropWhile _ _ ?_
  rw [List.chain'_reverse]
  exact chain_dropWhile _ _ h

/-- The head of the hyphen-stripped list is not a hyphen. -/
theorem head_stripDashes (l : List Char) (c : Char)
    (h : (stripDashes l).head? = some c) : (c == '-') = false := by
  unfold stripDashes at h
  rw [List.head?_reverse] at h
  have hne : ((l.dropWhile (fun c => c == '-')).reverse.dropWhile (fun c => c == '-')) ≠ [] := by
    intro he; rw [he] at h; simp at h
  rw [getLast_dropWhile _ _ hne, List.getLast?_reverse] at h
  exact head_dropWhile_not _ _ c h

/-- The last character of the hyphen-stripped list is not a hyphen. -/
theorem getLast_stripDashes (l : List Char) (c : Char)
    (h : (stripDashes l).getLast? = some c) : (c == '-') = false := by
  unfold stripDashes at h
  rw [List.getLast?_reverse] at h
  exact head_dropWhile_not _ _ c h

/-- A list with no hyphen at either end is a fixed point of hyphen
stripping. -/
theorem stripDashes_eq_self (l : List Char)
    (h1 : ∀ c, l.head? = some c → (c == '-') = false)
    (h2 : ∀ c, l.getLast? = some c → (c == '-') = false) :
    stripDashes l = l := by
  unfold stripDashes
  rw [dropWhile_eq_self_of_head _ l h1]
  rw [dropWhile_eq_self_of_head _ l.reverse
    (fun c hc => h2 c (by rwa [List.head?_reverse] at hc))]
  exact List.reverse_reverse l

/-- Every character of the slugify pipeline output is fixed by
lower-casing, in the kept class, not whitespace, and not ASCII upper-case. -/
theorem mem_slugifyL (l : List Char) (c : Char) (h : c ∈ slugifyL l) :
    pyLowerChar c = c ∧ slugKeep c = true ∧ isPySpace c = false ∧
      ¬(65 ≤ c.toNat ∧ c.toNat ≤ 90) := by
  unfold slugifyL at h
  have h1 := mem_stripDashes _ _ h
  rcases mem_collapseGo _ _ _ h1 with hd | ⟨hmem, hsep⟩
  · subst hd
    exact ⟨by decide, by decide, by decide, by decide⟩
  · rcases List.mem_filter.mp hmem with ⟨hmap, hkeep⟩
    rcases List.mem_map.mp hmap with ⟨a, _, ha⟩
    have hsp : isPySpace c = false := by
      unfold isSepCh at hsep
      simp only [Bool.or_eq_false_iff] at hsep
      exact hsep.1
    refine ⟨?_, hkeep, hsp, ?_⟩
    · rw [← ha]; exact pyLowerChar_idem a
    · rw [← ha]; exact pyLowerChar_not_upper a

/-- The slugify pipeline output never has two adjacent separators. -/
theorem chain_slugifyL (l : List Char) :
    List.Chain' (fun a c => isSepCh a = false ∨ isSepCh c = false) (slugifyL l) :=
  chain_stripDashes _ (chain_collapseGo _ false)

/-- The slugify pipeline is idempotent on character lists. -/
theorem slugifyL_idem (l : List Char) : slugifyL (slugifyL l) = slugifyL l := by
  have hmap : (slugifyL l).map pyLowerChar = slugifyL l := by
    rw [List.map_congr_left (fun c hc => (mem_slugifyL l c hc).1)]
    exact List.map_id _
  have hfilter : (slugifyL l).filter slugKeep = slugifyL l :=
    List.filter_eq_self.mpr (fun c hc => (mem_slugifyL l c hc).2.1)
  have hcollapse : collapseGo false (slugifyL l) = slugifyL l :=
    collapseGo_fixed _ (fun c hc => (mem_slugifyL l c hc).2.2.1) (chain_slugifyL l)
  have hstrip : stripDashes (slugifyL l) = slugifyL l := by
    refine stripDashes_eq_self _ ?_ ?_
    · intro c hc
      unfold slugifyL at hc
      exact head_stripDashes _ c hc
    · intro c hc
      unfold slugifyL at hc
      exact getLast_stripDashes _ c hc
  show stripDashes (collapseGo false (((slugifyL l).map pyLowerChar).filter slugKeep)) =
    slugifyL l
  rw [hmap, hfilter, hcollapse, hstrip]

/-- A packed string is empty exactly when its character list is. -/
theorem strMk_eq_empty_iff (l : List Char) : (String.mk l = "") ↔ l = [] := by
  constructor
  · intro h
    have h2 := congrArg String.toList h
    simpa using h2
  · intro h; rw [h]

/-- Claim C9: slugify always returns a non-empty string with no ASCII
upper-case letter, no whitespace, and no hyphen at either end, and it is
idempotent; the empty and all-special inputs map to the fixed token, which
slugifies to itself. -/
theorem C9_slugify_wellformed_idempotent :
    ∀ s : String,
      slugify s ≠ "" ∧
      (∀ c ∈ (slugify s).toList, ¬(65 ≤ c.toNat ∧ c.toNat ≤ 90)) ∧
      (∀ c ∈ (slugify s).toList, isPySpace c = false) ∧
      (∀ c, (slugify s).toList.head? = some c → c ≠ '-') ∧
      (∀ c, (slugify s).toList.getLast? = some c → c ≠ '-') ∧
      slugify (slugify s) = slugify s ∧
      slugify "unknown" = "unknown" := by
  have hunk : slugify "unknown" = "unknown" := by decide
  have hUnkProps :
      (∀ c ∈ ("unknown" : String).toList, ¬(65 ≤ c.toNat ∧ c.toNat ≤ 90)) ∧
      (∀ c ∈ ("unknown" : String).toList, isPySpace c = false) ∧
      (∀ c, ("unknown" : String).toList.head? = some c → c ≠ '-') ∧
      (∀ c, ("unknown" : String).toList.getLast? = some c → c ≠ '-') := by
    refine ⟨by decide, by decide, by decide, by decide⟩
  intro s
  by_cases hs : s = ""
  · subst hs
    have he : slugify "" = "unknown" := by decide
    rw [he, hunk]
    exact ⟨by decide, hUnkProps.1, hUnkProps.2.1, hUnkProps.2.2.1, hUnkProps.2.2.2,
      hunk, hunk⟩
  · by_cases hr : slugifyL s.toList = []
    · have hslug : slugify s = "unknown" := by
        simp only [slugify]
        rw [if_neg hs, hr]
        decide
      rw [hslug, hunk]
      exact ⟨by decide, hUnkProps.1, hUnkProps.2.1, hUnkProps.2.2.1, hUnkProps.2.2.2,
        hunk, hunk⟩
    · have hne : String.mk (slugifyL s.toList) ≠ "" :=
        fun h => hr ((strMk_eq_empty_iff _).mp h)
      have hslug : slugify s = String.mk (slugifyL s.toList) := by
        simp only [slugify]
        rw [if_neg hs, if_neg hne]
      have htl : (slugify s).toList = slugifyL s.toList := by
        rw [hslug]
        exact rfl
      refine ⟨?_, ?_, ?_, ?_, ?_, ?_, hunk⟩
      · rw [hslug]; exact hne
      · rw [htl]; intro c hc; exact (mem_slugifyL _ c hc).2.2.2
      · rw [htl]; intro c hc; exact (mem_slugifyL _ c hc).2.2.1
      · rw [htl]; intro c hc
        have hd : (c == '-') = false := by
          unfold slugifyL at hc
          exact head_stripDashes _ c hc
        simpa using hd
      · rw [htl]; intro c hc
        have hd : (c == '-') = false := by
          unfold slugifyL at hc
          exact getLast_stripDashes _ c hc
        simpa using hd
      · rw [hslug]
        simp only [slugify]
        rw [if_neg hne]
        have ht2 : (String.mk (slugifyL s.toList)).toList = slugifyL s.toList := rfl
        rw [ht2, slugifyL_idem, if_neg hne]

/-- Witness for C9 at a concrete mixed-case input. -/
theorem C9_witness :
    slugify "Hello,  World!" = "hello-world" ∧
    'h' ∈ (slugify "Hello,  World!").toList ∧
    ¬(65 ≤ 'h'.toNat ∧ 'h'.toNat ≤ 90) ∧
    ((slugify "Hello,  World!").toList.head? = some 'h' ∧ 'h' ≠ '-') ∧
    slugify (slugify "Hello,  World!") = slugify "Hello,  World!" :=
  ⟨by decide, by decide,
   (C9_slugify_wellformed_idempotent "Hello,  World!").2.1 'h' (by decide),
   ⟨by decide, (C9_slugify_wellformed_idempotent "Hello,  World!").2.2.2.1 'h' (by decide)⟩,
   (C9_slugify_wellformed_idempotent "Hello,  World!").2.2.2.2.2.1⟩
